import Mathlib

/-!
Verification development for the streaming orchestration engine of the
grok-cli repository (src/api.js).  The JavaScript source is shallowly
embedded: every asynchronous platform facility (filesystem, subprocess,
JSON parsing, HTTP fetch, abort signal) is an explicit oracle supplied in
an environment record, and each generator is interpreted as a total Lean
function producing a timestamped event trace.  Time advances by one at
every suspension point (an await or a yield), and the abort signal is a
function from time to Bool.
-/

namespace GrokCli

/-! ## Data model (src/api.js message and tool-call shapes) -/

/-- The `function` member of a tool call produced by the model. -/
structure ToolCallFunction where
  name : String
  arguments : String
deriving DecidableEq, Repr

/-- A tool invocation requested by the model. -/
structure ToolCall where
  id : String
  function : ToolCallFunction
deriving DecidableEq, Repr

/-- A chat message.  In the JavaScript source messages and tool results are
duck-typed records; tool results are pushed directly into the message
history, so one structure models both.  Absent JS fields are `none` / `[]`,
and the `_cached` flag of the catch-path result (absent, hence falsy in JS)
is modelled by the default `false`. -/
structure Message where
  role : String
  content : String
  tool_call_id : Option String := none
  name : Option String := none
  tool_calls : List ToolCall := []
  _cached : Bool := false
deriving DecidableEq, Repr

/-- An entry of the overflow cache (`this.toolResultsCache`). -/
structure CacheEntry where
  fullPath : String
  fullContent : String
deriving DecidableEq, Repr

/-- Per-client mutable state: the lazily created temp directory and the
overflow cache (a JS `Map`, modelled as an insertion-ordered
association list). -/
structure ClientState where
  tempDir : Option String := none
  toolResultsCache : List (String × CacheEntry) := []
deriving DecidableEq, Repr

/-- `Map.get` on the association list modelling the overflow cache. -/
def cacheGet (m : List (String × CacheEntry)) (k : String) : Option CacheEntry :=
  match m with
  | [] => none
  | (k', v) :: rest => if k' = k then some v else cacheGet rest k

/-- `Map.set` on the association list modelling the overflow cache:
update in place when present, append otherwise (JS `Map` keeps insertion
order). -/
def cacheSet (m : List (String × CacheEntry)) (k : String) (v : CacheEntry) :
    List (String × CacheEntry) :=
  match m with
  | [] => [(k, v)]
  | (k', v') :: rest =>
    if k' = k then (k, v) :: rest else (k', v') :: cacheSet rest k v

/-! ## String primitives

JS string operations (`includes`, `startsWith`, `slice`, `split`) are
modelled by structurally recursive functions over the character list of
the string, so that concrete runs reduce inside the kernel. -/

/-- Does the first list start with the second? -/
def charListStartsWith : List Char → List Char → Bool
  | _, [] => true
  | [], _ :: _ => false
  | c :: cs, p :: ps => c = p && charListStartsWith cs ps

/-- Does the pattern occur as a contiguous sublist? -/
def charListContains (pat : List Char) : List Char → Bool
  | [] => pat.isEmpty
  | c :: cs => charListStartsWith (c :: cs) pat || charListContains pat cs

/-- JS `s.includes(pat)`. -/
def includesStr (s pat : String) : Bool := charListContains pat.data s.data

/-- JS `s.startsWith(pre)`. -/
def strStartsWith (s pre : String) : Bool := charListStartsWith s.data pre.data

/-- JS `s.slice(n)` (for a nonnegative `n`). -/
def strDrop (s : String) (n : Nat) : String := String.mk (s.data.drop n)

/-- One step of JS `s.split(sep)` for a single-character separator, over
the character list. -/
def splitCharList (sep : Char) : List Char → List (List Char)
  | [] => [[]]
  | c :: rest =>
    if c = sep then [] :: splitCharList sep rest
    else
      match splitCharList sep rest with
      | [] => [[c]]
      | g :: gs => (c :: g) :: gs

/-- JS `s.split('\n')`. -/
def splitLines (s : String) : List String :=
  (splitCharList (Char.ofNat 10) s.data).map String.mk

/-! ## Tool arguments and the filesystem / shell environment -/

/-- The parsed JSON arguments of a tool call.  `JSON.parse` returns an
arbitrary object; the four tools only project these fields, each possibly
absent. -/
structure ToolArgs where
  path : Option String := none
  showHidden : Option Bool := none
  content : Option String := none
  command : Option String := none
  workingDir : Option String := none
  timeout : Option Nat := none
deriving DecidableEq, Repr

/-- A directory entry as returned by `fs.readdir(..., {withFileTypes:true})`. -/
structure DirEntry where
  name : String
  isDirectory : Bool
deriving DecidableEq, Repr

/-- Outcome of `child_process.exec`: success with stdout/stderr, or a
rejection carrying captured stdout/stderr, an optional numeric code and a
message. -/
inductive ExecOutcome where
  | ok (stdout stderr : String)
  | err (stdout stderr : String) (code : Option Nat) (message : String)
deriving DecidableEq, Repr

/-- The filesystem / subprocess / JSON platform collaborator used by the
tool executor.  Each `Except` result models a JS operation that either
resolves or rejects with an error message. -/
structure FsEnv where
  /-- `JSON.parse` applied to the tool-call argument string. -/
  parseArgs : String → Except String ToolArgs
  /-- `path.resolve` on a defined string (total). -/
  resolve : String → String
  /-- the TypeError message raised by `path.resolve(undefined)`. -/
  resolveUndefinedMsg : String
  /-- `fs.stat(p)` followed by `.isDirectory()`. -/
  statIsDirectory : String → Except String Bool
  /-- `fs.readdir(p, {withFileTypes:true})`. -/
  readdir : String → Except String (List DirEntry)
  /-- `a.name.localeCompare(b.name)` as a `≤` test used for sorting. -/
  nameLe : String → String → Bool
  /-- `fs.readFile(p, 'utf8')`. -/
  readFile : String → Except String String
  /-- `path.dirname`. -/
  dirname : String → String
  /-- `fs.mkdir(p, {recursive:true})`. -/
  mkdirp : String → Except String Unit
  /-- `fs.writeFile(p, data, 'utf8')`; `none` data models `undefined`. -/
  writeFile : String → Option String → Except String Unit
  /-- `fs.mkdtemp(path.join(os.tmpdir(), 'grok-cli-'))`. -/
  mkdtemp : Except String String
  /-- `process.cwd()`. -/
  cwd : String
  /-- `exec(command, {cwd, timeout})` (timeout in seconds here). -/
  execCmd : String → String → Nat → ExecOutcome

/-- `path.resolve` applied to a possibly-undefined argument: JS throws a
TypeError on `undefined`. -/
def resolveOpt (env : FsEnv) : Option String → Except String String
  | some p => .ok (env.resolve p)
  | none => .error env.resolveUndefinedMsg

/-! ## Tool implementations (listFilesImpl, writeFileImpl, readFileImpl,
executeShellImpl) -/

/-- `listFilesImpl` of src/api.js: resolve, require a directory, filter
hidden entries, sort by name, and render the listing; every failure is
caught and rendered as an error string. -/
def listFilesImpl (env : FsEnv) (args : ToolArgs) : String :=
  let dirPath := args.path.getD "."
  let showHidden := args.showHidden.getD false
  let fullPath := env.resolve dirPath
  match env.statIsDirectory fullPath with
  | .error e => "Error listing files: " ++ e
  | .ok isDir =>
    if !isDir then
      "Path \"" ++ fullPath ++ "\" is not a directory"
    else
      match env.readdir fullPath with
      | .error e => "Error listing files: " ++ e
      | .ok entries =>
        let filtered := entries.filter fun entry =>
          showHidden || !strStartsWith entry.name "."
        let sorted := filtered.mergeSort fun a b => env.nameLe a.name b.name
        if sorted.length = 0 then
          "Directory " ++ fullPath ++ " appears to be empty (showing " ++
            (if showHidden then "all files" else "non-hidden files only") ++ ")"
        else
          sorted.foldl
            (fun acc entry =>
              acc ++ (if entry.isDirectory then "📁" else "📄") ++ " " ++
                entry.name ++ "\n")
            ("📁 Contents of " ++ fullPath ++ ":\n\n")

/-- `writeFileImpl` of src/api.js. -/
def writeFileImpl (env : FsEnv) (args : ToolArgs) : String :=
  match resolveOpt env args.path with
  | .error e => "Error writing file: " ++ e
  | .ok fullPath =>
    match env.mkdirp (env.dirname fullPath) with
    | .error e => "Error writing file: " ++ e
    | .ok _ =>
      match env.writeFile fullPath args.content with
      | .error e => "Error writing file: " ++ e
      | .ok _ =>
        -- success implies `content` was a defined string in JS
        "Successfully wrote " ++ toString (args.content.getD "").length ++
          " bytes to " ++ fullPath

/-- `readFileImpl` of src/api.js: the successful result is the file content
prefixed with a header naming the resolved path. -/
def readFileImpl (env : FsEnv) (args : ToolArgs) : String :=
  match resolveOpt env args.path with
  | .error e => "Error reading file: " ++ e
  | .ok fullPath =>
    match env.readFile fullPath with
    | .error e => "Error reading file: " ++ e
    | .ok content => "Contents of " ++ fullPath ++ ":\n" ++ content

/-- `error.code || 1` with JS truthiness: a missing or zero code becomes 1. -/
def codeOrOne : Option Nat → Nat
  | some c => if c = 0 then 1 else c
  | none => 1

/-- `executeShellImpl` of src/api.js.  An undefined command is
interpolated as the string "undefined" by the JS template literal. -/
def executeShellImpl (env : FsEnv) (args : ToolArgs) : String :=
  let command := match args.command with
    | some c => c
    | none => "undefined"
  let workingDir := args.workingDir.getD env.cwd
  let timeout := args.timeout.getD 30
  match env.execCmd command workingDir timeout with
  | .ok stdout stderr =>
    "Executed \"" ++ command ++ "\" in " ++ workingDir ++ ":\nStdout: " ++
      stdout ++ "\nStderr: " ++ stderr ++ "\nExit code: 0"
  | .err stdout stderr code message =>
    "Error executing \"" ++ command ++ "\" in " ++ workingDir ++
      ":\nStdout: " ++ stdout ++ "\nStderr: " ++ stderr ++ "\nExit code: " ++
      toString (codeOrOne code) ++ "\nError: " ++ message

/-! ## executeToolCall -/

/-- `initTempDir` of src/api.js: create the temp directory on first use;
the state is mutated only when `mkdtemp` succeeds. -/
def initTempDir (env : FsEnv) (st : ClientState) :
    Except String String × ClientState :=
  match st.tempDir with
  | some d => (.ok d, st)
  | none =>
    match env.mkdtemp with
    | .error e => (.error e, st)
    | .ok d => (.ok d, { st with tempDir := some d })

/-- Build the ToolResult record returned on the success path of
`executeToolCall`. -/
def mkToolResult (tc : ToolCall) (content : String) (cached : Bool) : Message :=
  { role := "tool", content := content, tool_call_id := some tc.id,
    name := some tc.function.name, _cached := cached }

/-- The `readFile` arm of the `executeToolCall` switch, including the
overflow-cache handling for results longer than 500 characters.  The
temp-file write can reject, in which case the error propagates to the
surrounding try/catch (hence the `Except`). -/
def readFileArm (env : FsEnv) (st : ClientState) (tc : ToolCall)
    (args : ToolArgs) : Except String Message × ClientState :=
  let result := readFileImpl env args
  if result.length > 500 then
    match initTempDir env st with
    | (.error e, st') => (.error e, st')
    | (.ok tempDir, st') =>
      let tempFile := tempDir ++ "/tool_" ++ tc.id ++ ".txt"
      match env.writeFile tempFile (some result) with
      | .error e => (.error e, st')
      | .ok _ =>
        let st'' := { st' with
          toolResultsCache :=
            cacheSet st'.toolResultsCache tc.id ⟨tempFile, result⟩ }
        let lines := splitLines result
        let fileSize := result.length
        let lineCount := lines.length
        let filePath := match args.path with
          | some p => if p = "" then "unknown" else p
          | none => "unknown"
        let summary := "📄 Read file: " ++ filePath ++ " (" ++
          toString fileSize ++ " bytes, " ++ toString lineCount ++
          " lines)\n[Full content cached for AI analysis]"
        (.ok (mkToolResult tc summary true), st'')
  else
    (.ok (mkToolResult tc result false), st)

/-- The body of `executeToolCall` before its try/catch: parse the
arguments, dispatch on the function name, and build the success
ToolResult; an `.error` models a thrown exception reaching the catch.
State mutations made before a throw persist, so the state is threaded
through the error case as well. -/
def executeToolCallExc (env : FsEnv) (st : ClientState) (tc : ToolCall) :
    Except String Message × ClientState :=
  match env.parseArgs tc.function.arguments with
  | .error e => (.error e, st)
  | .ok args =>
    let functionName := tc.function.name
    if functionName = "listFiles" then
      (.ok (mkToolResult tc (listFilesImpl env args) false), st)
    else if functionName = "writeFile" then
      (.ok (mkToolResult tc (writeFileImpl env args) false), st)
    else if functionName = "readFile" then
      readFileArm env st tc args
    else if functionName = "executeShell" then
      (.ok (mkToolResult tc (executeShellImpl env args) false), st)
    else
      (.ok (mkToolResult tc ("Unknown tool: " ++ functionName) false), st)

/-- `executeToolCall` of src/api.js: the try/catch wrapper.  A thrown
error is converted into a tool-role result whose content is
`Error: <message>`; that record carries no `_cached` field (falsy). -/
def executeToolCall (env : FsEnv) (st : ClientState) (tc : ToolCall) :
    Message × ClientState :=
  match executeToolCallExc env st tc with
  | (.ok r, st') => (r, st')
  | (.error e, st') =>
    ({ role := "tool", content := "Error: " ++ e,
       tool_call_id := some tc.id, name := some tc.function.name }, st')

/-! ## Transport layer and the fallback chat call -/

/-- The fixed model registry (`modelNames` in `chat` and `chatStream`). -/
def modelNames : List String := ["grok-4", "grok-beta", "grok-3"]

/-- Outcome of one non-streaming `fetch` of the completions endpoint, as
observed by `chat`: a network rejection, a non-2xx response (status,
statusText and body text), a 2xx response whose JSON decoding or shape
access throws, or a decoded first-choice message. -/
inductive FetchResult where
  | netErr (message : String)
  | httpErr (status : Nat) (statusText : String) (body : String)
  | jsonErr (message : String)
  | ok (content : Option String) (tool_calls : List ToolCall)
deriving DecidableEq, Repr

/-- The `{content, toolCalls}` record returned by `chat`. -/
structure ChatResp where
  content : Option String
  toolCalls : List ToolCall
deriving DecidableEq, Repr

/-- One `reader.read()` result of a streamed response body. -/
inductive ReadEv where
  | chunk (s : String)
  | closed
  | errored (message : String)
deriving DecidableEq, Repr

/-- Outcome of one streaming `fetch` as observed by `chatStream`. -/
inductive StreamFetch where
  | netErr (message : String)
  | httpErr (status : Nat) (statusText : String) (body : String)
  | ok (reads : List ReadEv)
deriving DecidableEq, Repr

/-- The full environment of the client: the abort signal as a function of
time, the two transports indexed by the time at which the fetch is
dispatched, the JSON decoding of stream delta lines, and the filesystem
collaborator.  `parseDelta` returns `none` when `JSON.parse` (or the
subsequent shape access) throws, and `some d` with
`d = parsed.choices[0]?.delta?.content` otherwise. -/
structure Env where
  aborted : Nat → Bool
  transport : Nat → String → List Message → Bool → FetchResult
  transportS : Nat → String → List Message → StreamFetch
  parseDelta : String → Option (Option String)
  fs : FsEnv

/-- Timestamped observable events of the tool-call loop and the fallback
chat call.  `fetchIssued` is recorded when `fetch` dispatches a network
request (signal not yet aborted at dispatch time); `fetchAborted` when
`fetch` is called with an already-aborted signal and rejects without
issuing a request; `chatCall` marks one invocation of `chat` (one logical
model request); `outStr` a yielded progress/notice string; `outChar` one
yielded character of final-answer content. -/
inductive Ev where
  | fetchIssued (model : String) (useTools : Bool)
  | fetchAborted (model : String)
  | chatCall (useTools : Bool)
  | toolRun (id : String) (toolName : String)
  | outStr (s : String)
  | outChar (c : Char)
deriving DecidableEq, Repr

/-- The body of one per-model attempt inside `chat`, up to but not
including the surrounding catch: `.ok (some r)` is a successful return,
`.ok none` is the explicit retryable `continue` (status 503 or a body
containing "unavailable"), and `.error e` is a thrown error (network
failure, the deliberately thrown fatal `XAI API error`, or a JSON
failure). -/
def chatAttemptResult (E : Env) (t : Nat) (model : String)
    (msgs : List Message) (useTools : Bool) :
    Except String (Option ChatResp) :=
  match E.transport t model msgs useTools with
  | .netErr e => .error e
  | .httpErr status statusText body =>
    if status = 503 || includesStr body "unavailable" then
      .ok none
    else
      .error ("XAI API error: " ++ toString status ++ " " ++ statusText ++
        " - " ++ body)
  | .jsonErr e => .error e
  | .ok content tool_calls => .ok (some ⟨content, tool_calls⟩)

/-- The model-fallback loop of `chat`.  Each fetch occupies one time tick.
A call with an already-aborted signal rejects without issuing a request
(`fetchAborted`), and — faithfully to the source — the per-model catch
turns *every* thrown error, including the deliberately thrown fatal
`XAI API error`, into a continue to the next model. -/
def chatGo (E : Env) (msgs : List Message) (useTools : Bool) :
    List String → Nat → Except String ChatResp × Nat × List (Nat × Ev)
  | [], t => (.error "All models failed or are unavailable", t, [])
  | model :: rest, t =>
    if E.aborted t then
      -- fetch with an aborted signal rejects immediately; the catch
      -- continues to the next model
      let rec2 := chatGo E msgs useTools rest (t + 1)
      (rec2.1, rec2.2.1, (t, Ev.fetchAborted model) :: rec2.2.2)
    else
      match chatAttemptResult E t model msgs useTools with
      | .ok (some resp) => (.ok resp, t + 1, [(t, Ev.fetchIssued model useTools)])
      | .ok none =>
        -- retryable: continue to the next model
        let rec2 := chatGo E msgs useTools rest (t + 1)
        (rec2.1, rec2.2.1, (t, Ev.fetchIssued model useTools) :: rec2.2.2)
      | .error _ =>
        -- thrown; the catch logs and continues to the next model
        let rec2 := chatGo E msgs useTools rest (t + 1)
        (rec2.1, rec2.2.1, (t, Ev.fetchIssued model useTools) :: rec2.2.2)

/-- `chat` of src/api.js: iterate the model registry; if every attempt
fails, throw the exhaustion error. -/
def chat (E : Env) (msgs : List Message) (useTools : Bool) (t : Nat) :
    Except String ChatResp × Nat × List (Nat × Ev) :=
  chatGo E msgs useTools modelNames t

/-! ## The streaming tool-call loop (streamWithTools) -/

/-- The AI-facing version of a tool result: when the executor flagged the
result as cached and the overflow cache holds the entry, substitute the
full cached content; otherwise keep the executor result as is.  `c` is the
client state *after* the execution. -/
def aiMsg (res : Message) (c : ClientState) (tc : ToolCall) : Message :=
  match res._cached, cacheGet c.toolResultsCache tc.id with
  | true, some entry => { res with content := entry.fullContent }
  | _, _ => res

/-- The UI progress line yielded after each tool execution. -/
def uiLine (tc : ToolCall) (res : Message) : String :=
  "📋 **" ++ tc.function.name ++ "**: " ++ res.content ++ "\n\n"

/-- The for-loop over one turn's tool calls.  The abort signal is checked
immediately before each execution; the execution itself occupies one tick
and the result line is yielded (without a further check) one tick later.
Returns the AI-facing result list, the events, the final time and the
final client state. -/
def toolLoop (E : Env) : List ToolCall → Nat → ClientState →
    List Message × List (Nat × Ev) × Nat × ClientState
  | [], t, c => ([], [], t, c)
  | tc :: rest, t, c =>
    if E.aborted t then
      ([], [], t, c)
    else
      let r := executeToolCall E.fs c tc
      let rec2 := toolLoop E rest (t + 2) r.2
      (aiMsg r.1 r.2 tc :: rec2.1,
        (t, Ev.toolRun tc.id tc.function.name) ::
          (t + 1, Ev.outStr (uiLine tc r.1)) :: rec2.2.1,
        rec2.2.2.1, rec2.2.2.2)

/-- The same per-turn tool fold with no abort interleaving: used to state
what a turn computes when the token never fires during it. -/
def toolLoopPure (env : FsEnv) : List ToolCall → ClientState →
    List Message × ClientState
  | [], c => ([], c)
  | tc :: rest, c =>
    let r := executeToolCall env c tc
    let rec2 := toolLoopPure env rest r.2
    (aiMsg r.1 r.2 tc :: rec2.1, rec2.2)

/-- Per-character emission of an already-received final answer: the abort
signal is checked before each character, and each yield occupies one
tick. -/
def charLoop (E : Env) : List Char → Nat → List (Nat × Ev) × Nat
  | [], t => ([], t)
  | ch :: rest, t =>
    if E.aborted t then
      ([], t)
    else
      let rec2 := charLoop E rest (t + 1)
      ((t, Ev.outChar ch) :: rec2.1, rec2.2)

/-- JS truthiness of an optional string (`if (content)`): defined and
nonempty. -/
def strTruthy : Option String → Bool
  | some s => !(s = "")
  | none => false

/-- The iteration ceiling (`maxIterations`) of `streamWithTools`. -/
def maxIterations : Nat := 25

/-- The mutable locals of `streamWithTools`: the working history, the
iteration counter, the clock and the client state. -/
structure SWState where
  msgs : List Message
  iter : Nat
  t : Nat
  cst : ClientState
deriving Repr

/-- The `🔧 Executing ...` progress notice of one tool turn. -/
def toolNotice (n : Nat) (iter : Nat) : String :=
  "🔧 Executing " ++ toString n ++ " tool call(s)... (iteration " ++
    toString (iter + 1) ++ ")\n\n"

/-- The assistant message echoing the tool-call request (JS
`content || ''`). -/
def assistantEcho (content : Option String) (tcs : List ToolCall) : Message :=
  { role := "assistant", content := content.getD "", tool_calls := tcs }

/-- The while-loop of `streamWithTools`.  The loop guard
`iterationCount < maxIterations` is realised by the fuel argument, which
the caller sets to `maxIterations` with `iter = 0`; `iter` increments
exactly when the recursion consumes fuel, so `fuel = maxIterations - iter`
throughout.  The third component is a thrown error (caught and wrapped by
the enclosing try/catch). -/
def swLoop (E : Env) : Nat → SWState → SWState × List (Nat × Ev) × Option String
  | 0, st => (st, [], none)
  | fuel + 1, st =>
    if E.aborted st.t then
      -- break out of the while loop
      (st, [], none)
    else
      let cr := chat E st.msgs true st.t
      let ctr := (st.t, Ev.chatCall true) :: cr.2.2
      match cr.1 with
      | .error e => ({ st with t := cr.2.1 }, ctr, some e)
      | .ok resp =>
        match resp.toolCalls with
        | _ :: _ =>
          -- tool branch: yield the notice (no abort check), run the tools,
          -- and append one assistant message plus the AI-facing results
          let tl := toolLoop E resp.toolCalls (cr.2.1 + 1) st.cst
          let evs := ctr ++
            (cr.2.1, Ev.outStr (toolNotice resp.toolCalls.length st.iter)) :: tl.2.1
          if E.aborted tl.2.2.1 then
            ({ st with t := tl.2.2.1, cst := tl.2.2.2 }, evs, none)
          else
            let st' : SWState :=
              { msgs := st.msgs ++ assistantEcho resp.content resp.toolCalls :: tl.1,
                iter := st.iter + 1, t := tl.2.2.1, cst := tl.2.2.2 }
            let rec2 := swLoop E fuel st'
            (rec2.1, evs ++ rec2.2.1, rec2.2.2)
        | [] =>
          -- final answer: stream it character by character, then break
          if strTruthy resp.content then
            let cl := charLoop E (resp.content.getD "").data cr.2.1
            ({ st with t := cl.2 }, ctr ++ cl.1, none)
          else
            ({ st with t := cr.2.1 }, ctr, none)

/-- The ceiling-exceeded notice. -/
def ceilingNotice : String :=
  "\n\n⚠️ Reached maximum tool call iterations (" ++ toString maxIterations ++
    "). Providing summary...\n\n"

/-- `streamWithTools` of src/api.js: run the bounded loop; if the loop
threw, wrap the error; if the iteration ceiling was reached, yield the
ceiling notice (without an abort check) and perform exactly one more
`chat` call with tools disabled, streaming its content. -/
def streamWithTools (E : Env) (messages : List Message) (t0 : Nat) :
    SWState × List (Nat × Ev) × Option String :=
  let st0 : SWState := ⟨messages, 0, t0, {}⟩
  let L := swLoop E maxIterations st0
  match L.2.2 with
  | some e => (L.1, L.2.1, some ("Streaming API error: " ++ e))
  | none =>
    if maxIterations ≤ L.1.iter then
      let ev0 := (L.1.t, Ev.outStr ceilingNotice)
      let cr := chat E L.1.msgs false (L.1.t + 1)
      let ctr := (L.1.t + 1, Ev.chatCall false) :: cr.2.2
      match cr.1 with
      | .error e =>
        ({ L.1 with t := cr.2.1 }, L.2.1 ++ ev0 :: ctr,
          some ("Streaming API error: " ++ e))
      | .ok resp =>
        if strTruthy resp.content then
          let cl := charLoop E (resp.content.getD "").data cr.2.1
          ({ L.1 with t := cl.2 }, L.2.1 ++ ev0 :: ctr ++ cl.1, none)
        else
          ({ L.1 with t := cr.2.1 }, L.2.1 ++ ev0 :: ctr, none)
    else
      (L.1, L.2.1, none)

/-! ## The plain streaming call (chatStream) -/

/-- Timestamped observable events of `chatStream`.  Fragments are tagged
with the model whose stream produced them (the tag is bookkeeping for the
statements; the caller of the generator only sees the string). -/
inductive CsEv where
  | fetchIssued (model : String)
  | fetchAborted (model : String)
  | readBegin (model : String)
  | frag (model : String) (s : String)
deriving DecidableEq, Repr

/-- How one model's read loop ended: `retEnd` covers the `[DONE]`
terminator, a closed body and the abort break (all of which `return` from
the generator), while `threw` is an error thrown during reading, which
the per-model catch turns into a retry of the next model. -/
inductive ReadEnd where
  | retEnd
  | threw (message : String)
deriving DecidableEq, Repr

/-- The for-loop over the `data: `-prefixed lines of one decoded chunk.
Malformed JSON (`parseDelta = none`) and missing delta content are
skipped; the literal `[DONE]` payload ends the whole generator (remaining
lines are not processed).  Each yielded fragment occupies one tick; the
final Bool reports whether `[DONE]` was seen. -/
def processLinesS (E : Env) (model : String) :
    List String → Nat → List (Nat × CsEv) × Nat × Bool
  | [], t => ([], t, false)
  | line :: rest, t =>
    if strStartsWith line "data: " then
      let data := strDrop line 6
      if data = "[DONE]" then
        ([], t, true)
      else
        match E.parseDelta data with
        | some (some d) =>
          if d = "" then
            -- JS truthiness: an empty delta is not yielded
            processLinesS E model rest t
          else
            let rec2 := processLinesS E model rest (t + 1)
            ((t, CsEv.frag model d) :: rec2.1, rec2.2.1, rec2.2.2)
        | some none => processLinesS E model rest t
        | none =>
          -- malformed JSON: skipped, decoding continues
          processLinesS E model rest t
    else
      processLinesS E model rest t

/-- The `while (true)` read loop of `chatStream` for one model's response
body.  The abort signal is checked before each read (a fired signal
cancels the reader and the generator returns); each read occupies one
tick.  An exhausted read list models `done`. -/
def readLoop (E : Env) (model : String) :
    List ReadEv → Nat → List (Nat × CsEv) × Nat × ReadEnd
  | [], t => ([], t, .retEnd)
  | r :: rest, t =>
    if E.aborted t then
      ([], t, .retEnd)
    else
      let ev := (t, CsEv.readBegin model)
      match r with
      | .closed => ([ev], t + 1, .retEnd)
      | .errored e => ([ev], t + 1, .threw e)
      | .chunk s =>
        let pl := processLinesS E model (splitLines s) (t + 1)
        if pl.2.2 then
          (ev :: pl.1, pl.2.1, .retEnd)
        else
          let rec2 := readLoop E model rest pl.2.1
          (ev :: pl.1 ++ rec2.1, rec2.2.1, rec2.2.2)

/-- The model-fallback loop of `chatStream`.  As in `chat`, the per-model
catch converts both the retryable non-2xx continue and every thrown error
(network failure, the fatal `XAI API error`, a mid-read stream error)
into a retry of the next model; only a completed stream (terminator,
closed body or abort break) returns.  The third component is the thrown
exhaustion error, `none` on normal return. -/
def csModelLoop (E : Env) (msgs : List Message) :
    List String → Nat → List (Nat × CsEv) × Nat × Option String
  | [], t => ([], t, some "All streaming models failed or are unavailable")
  | model :: rest, t =>
    if E.aborted t then
      -- fetch with an aborted signal rejects without issuing a request;
      -- the catch continues to the next model
      let rec2 := csModelLoop E msgs rest (t + 1)
      ((t, CsEv.fetchAborted model) :: rec2.1, rec2.2.1, rec2.2.2)
    else
      match E.transportS t model msgs with
      | .netErr _ =>
        let rec2 := csModelLoop E msgs rest (t + 1)
        ((t, CsEv.fetchIssued model) :: rec2.1, rec2.2.1, rec2.2.2)
      | .httpErr status _ body =>
        if status = 503 || includesStr body "unavailable" then
          -- retryable: continue to the next model
          let rec2 := csModelLoop E msgs rest (t + 1)
          ((t, CsEv.fetchIssued model) :: rec2.1, rec2.2.1, rec2.2.2)
        else
          -- fatal throw, swallowed by the per-model catch: continue
          let rec2 := csModelLoop E msgs rest (t + 1)
          ((t, CsEv.fetchIssued model) :: rec2.1, rec2.2.1, rec2.2.2)
      | .ok reads =>
        let rl := readLoop E model reads (t + 1)
        match rl.2.2 with
        | .retEnd => ((t, CsEv.fetchIssued model) :: rl.1, rl.2.1, none)
        | .threw _ =>
          let rec2 := csModelLoop E msgs rest rl.2.1
          ((t, CsEv.fetchIssued model) :: rl.1 ++ rec2.1, rec2.2.1, rec2.2.2)

/-- `chatStream` of src/api.js. -/
def chatStream (E : Env) (msgs : List Message) (t0 : Nat) :
    List (Nat × CsEv) × Nat × Option String :=
  csModelLoop E msgs modelNames t0

/-! ## Concrete test environments

Closed instantiations used by the witnesses and counterexamples below.
Each models one concrete run of the program against a deterministic
platform. -/

/-- A filesystem collaborator on which every operation fails or is
trivial: used where the filesystem is irrelevant to the scenario. -/
def noFs : FsEnv where
  parseArgs _ := .ok {}
  resolve p := p
  resolveUndefinedMsg := "path must be a string"
  statIsDirectory _ := .error "ENOENT"
  readdir _ := .error "ENOENT"
  nameLe a b := decide (a ≤ b)
  readFile _ := .error "ENOENT"
  dirname p := p
  mkdirp _ := .ok ()
  writeFile _ _ := .ok ()
  mkdtemp := .ok "/tmp/grok-cli-x"
  cwd := "/"
  execCmd _ _ _ := .ok "" ""

/-- A user message used by the concrete runs. -/
def msgU : Message := { role := "user", content := "hello" }

/-- Scenario for the fallback chat call: the first model answers HTTP 400
with a body not containing "unavailable" (a non-retryable failure), the
second model answers 200 with content "hi". -/
def E1 : Env where
  aborted _ := false
  transport t _ _ _ :=
    if t = 0 then .httpErr 400 "Bad Request" "bad request body"
    else if t = 1 then .ok (some "hi") []
    else .netErr "unreachable"
  transportS _ _ _ := .netErr "unused"
  parseDelta _ := none
  fs := noFs

/-- A tool call naming `listFiles`. -/
def tc0 : ToolCall := ⟨"id1", ⟨"listFiles", "argstr"⟩⟩

/-- Scenario for cancellation: the first model turn requests one tool
call, and the token fires at time 3 — during the execution of that tool
call (the execution occupies the interval from 2 to 3). -/
def E4 : Env where
  aborted t := decide (3 ≤ t)
  transport t _ _ _ :=
    if t = 0 then .ok none [tc0] else .netErr "unreachable"
  transportS _ _ _ := .netErr "unused"
  parseDelta _ := none
  fs := noFs

/-- A 501-character file content. -/
def bigContent : String := String.mk (List.replicate 501 'a')

/-- Filesystem with one 501-character file at "/f"; tool arguments parse
to `{path: "/f"}`. -/
def fs2 : FsEnv :=
  { noFs with
    parseArgs := fun _ => .ok { path := some "/f" },
    readFile := fun _ => .ok bigContent }

/-- A tool call naming `readFile`. -/
def tcRead : ToolCall := ⟨"id2", ⟨"readFile", "argstr"⟩⟩

/-- Scenario for the plain streaming call: the first model streams one
fragment ("Hello") and then the connection errors mid-read; the second
model streams one fragment ("World") and then the `[DONE]` terminator. -/
def E6 : Env where
  aborted _ := false
  transport _ _ _ _ := .netErr "unused"
  transportS t _ _ :=
    if t = 0 then .ok [.chunk "data: A1\n", .errored "reset"]
    else if t = 4 then .ok [.chunk "data: B1\n", .chunk "data: [DONE]\n"]
    else .netErr "unreachable"
  parseDelta s :=
    if s = "A1" then some (some "Hello")
    else if s = "B1" then some (some "World")
    else none
  fs := noFs

/-- A user message with a file-read request; the transport answers the
first model request with one tool call and any later request with a plain
answer.  Used as an unaborted one-tool-turn scenario. -/
def E5 : Env where
  aborted _ := false
  transport t _ _ _ :=
    if t = 0 then .ok (some "k") [tc0] else .ok (some "done") []
  transportS _ _ _ := .netErr "unused"
  parseDelta _ := none
  fs := noFs

/-- A filesystem whose JSON argument parsing always fails. -/
def envBad : FsEnv := { noFs with parseArgs := fun _ => .error "Unexpected token" }

/-- A tool call with a name outside the fixed tool set. -/
def tcU : ToolCall := ⟨"id3", ⟨"frobnicate", "argstr"⟩⟩

/-! ## Statement vocabulary

Definitions used only to state the theorems below: event counting, the
guarded-event predicates, the per-model fragment tags, and the shapes of
one tool turn of the loop. -/

/-- Number of `chatCall u` events in a trace: the number of logical model
requests with (`u = true`) or without (`u = false`) tools. -/
def countTools (evs : List (Nat × Ev)) (u : Bool) : Nat :=
  evs.countP fun e => decide (e.2 = Ev.chatCall u)

/-- The events of the tool-call loop that the source emits only behind a
cancellation check or a pre-aborted-signal fetch rejection: network
dispatches, tool executions, and final-answer characters. -/
def evGuarded : Ev → Bool
  | .fetchIssued _ _ => true
  | .toolRun _ _ => true
  | .outChar _ => true
  | _ => false

/-- The events of the plain streaming call that the source emits only
behind a cancellation check: network dispatches and reads. -/
def csEvGuarded : CsEv → Bool
  | .fetchIssued _ => true
  | .readBegin _ => true
  | _ => false

/-- The model tags of the fragment events of a `chatStream` trace, in
emission order. -/
def fragModels (tr : List (Nat × CsEv)) : List String :=
  tr.filterMap fun p =>
    match p.2 with
    | CsEv.frag m _ => some m
    | _ => none

/-- The state entering the next loop iteration after a completed tool
turn: the working history grows by exactly one assistant echo followed by
the AI-facing tool results, the iteration counter by one. -/
def nextSW (E : Env) (st : SWState) (content : Option String)
    (tcs : List ToolCall) (t1 : Nat) : SWState :=
  { msgs := st.msgs ++ assistantEcho content tcs :: (toolLoopPure E.fs tcs st.cst).1,
    iter := st.iter + 1, t := t1 + 1 + 2 * tcs.length,
    cst := (toolLoopPure E.fs tcs st.cst).2 }

/-- What one completed (uncancelled) tool turn of `swLoop` does, given
that the model turn returned `(content, tcs)` at time `t1` with trace
`ctr`: the AI-facing results are one per requested call, in call order,
each the executor result with the full cached content substituted when
flagged; and the loop proceeds as `swLoop` on `nextSW` — so the history
gains exactly one assistant message plus the results before the next
model request. -/
def ToolTurnSpec (E : Env) (fuel : Nat) (st : SWState) (content : Option String)
    (tcs : List ToolCall) (t1 : Nat) (ctr : List (Nat × Ev)) : Prop :=
  (toolLoopPure E.fs tcs st.cst).1.length = tcs.length ∧
  (∀ i : Nat,
    (toolLoopPure E.fs tcs st.cst).1.get? i =
      (tcs.get? i).map fun tci =>
        aiMsg (executeToolCall E.fs ((toolLoopPure E.fs (tcs.take i) st.cst).2) tci).1
              (executeToolCall E.fs ((toolLoopPure E.fs (tcs.take i) st.cst).2) tci).2
              tci) ∧
  ∃ tevs,
    swLoop E (fuel + 1) st =
      ((swLoop E fuel (nextSW E st content tcs t1)).1,
       ((st.t, Ev.chatCall true) :: ctr) ++
         (t1, Ev.outStr (toolNotice tcs.length st.iter)) :: tevs ++
         (swLoop E fuel (nextSW E st content tcs t1)).2.1,
       (swLoop E fuel (nextSW E st content tcs t1)).2.2)

/-- What a tool turn of `swLoop` does around cancellation: if the token is
fired at the post-loop check, the turn's assistant message and results are
not appended (the working history and the iteration counter are left
unchanged and the loop terminates); if it is not fired there, every
requested call of the turn was executed. -/
def AbortedTurnSpec (E : Env) (fuel : Nat) (st : SWState)
    (tcs : List ToolCall) (t1 : Nat) : Prop :=
  (E.aborted (toolLoop E tcs (t1 + 1) st.cst).2.2.1 = true →
    ∃ evs, swLoop E (fuel + 1) st =
      (⟨st.msgs, st.iter, (toolLoop E tcs (t1 + 1) st.cst).2.2.1,
        (toolLoop E tcs (t1 + 1) st.cst).2.2.2⟩, evs, none)) ∧
  (E.aborted (toolLoop E tcs (t1 + 1) st.cst).2.2.1 = false →
    (toolLoop E tcs (t1 + 1) st.cst).1.length = tcs.length)

end GrokCli

namespace GrokCli

/-! ## Properties of one tool turn -/

theorem toolLoopPure_length (env : FsEnv) (tcs : List ToolCall) :
    ∀ c, (toolLoopPure env tcs c).1.length = tcs.length := by
  induction tcs with
  | nil => intro c; rfl
  | cons tc rest ih =>
    intro c
    obtain ⟨res, c', hexec⟩ : ∃ r s, executeToolCall env c tc = (r, s) := ⟨_, _, rfl⟩
    simp only [toolLoopPure, hexec, List.length_cons]
    obtain ⟨ais, c'', hpure⟩ : ∃ a b, toolLoopPure env rest c' = (a, b) := ⟨_, _, rfl⟩
    simp only [hpure, List.length_cons]
    have := ih c'
    rw [hpure] at this
    simpa using this

theorem toolLoopPure_get? (env : FsEnv) (tcs : List ToolCall) :
    ∀ (c : ClientState) (i : Nat),
      (toolLoopPure env tcs c).1.get? i =
        (tcs.get? i).map fun tci =>
          aiMsg (executeToolCall env ((toolLoopPure env (tcs.take i) c).2) tci).1
                (executeToolCall env ((toolLoopPure env (tcs.take i) c).2) tci).2
                tci := by
  induction tcs with
  | nil => intro c i; simp [toolLoopPure]
  | cons tc rest ih =>
    intro c i
    obtain ⟨res, c', hexec⟩ : ∃ r s, executeToolCall env c tc = (r, s) := ⟨_, _, rfl⟩
    obtain ⟨ais, c'', hpure⟩ : ∃ a b, toolLoopPure env rest c' = (a, b) := ⟨_, _, rfl⟩
    have e1 : toolLoopPure env (tc :: rest) c = (aiMsg res c' tc :: ais, c'') := by
      simp only [toolLoopPure, hexec, hpure]
    cases i with
    | zero =>
      simp only [e1, List.get?, List.take_zero, Option.map_some']
      try simp only [toolLoopPure, hexec]
    | succ n =>
      simp only [e1, List.get?, List.take]
      have e2 : (toolLoopPure env (tc :: List.take n rest) c).2 =
          (toolLoopPure env (List.take n rest) c').2 := by
        simp only [toolLoopPure, hexec]
      rw [e2, hexec]
      exact ih c' n

theorem toolLoop_eq_pure (E : Env) (tcs : List ToolCall) :
    ∀ (t : Nat) (c : ClientState),
      (∀ τ, τ < t + 2 * tcs.length → E.aborted τ = false) →
      ∃ evs, toolLoop E tcs t c =
        ((toolLoopPure E.fs tcs c).1, evs, t + 2 * tcs.length,
          (toolLoopPure E.fs tcs c).2) := by
  induction tcs with
  | nil =>
    intro t c _
    exact ⟨[], by simp [toolLoop, toolLoopPure]⟩
  | cons tc rest ih =>
    intro t c hab
    have h0 : E.aborted t = false := hab t (by simp only [List.length_cons]; omega)
    obtain ⟨res, c', hexec⟩ : ∃ r s, executeToolCall E.fs c tc = (r, s) := ⟨_, _, rfl⟩
    obtain ⟨evs, hrec⟩ :=
      ih (t + 2) c' (fun τ hτ => hab τ (by simp only [List.length_cons] at hτ ⊢; omega))
    obtain ⟨ais, c'', hpure⟩ : ∃ a b, toolLoopPure E.fs rest c' = (a, b) := ⟨_, _, rfl⟩
    rw [hpure] at hrec
    have e1 : toolLoopPure E.fs (tc :: rest) c = (aiMsg res c' tc :: ais, c'') := by
      simp only [toolLoopPure, hexec, hpure]
    refine ⟨(t, Ev.toolRun tc.id tc.function.name) ::
      (t + 1, Ev.outStr (uiLine tc res)) :: evs, ?_⟩
    have e2 : toolLoop E (tc :: rest) t c =
        (aiMsg res c' tc :: ais,
          (t, Ev.toolRun tc.id tc.function.name) ::
            (t + 1, Ev.outStr (uiLine tc res)) :: evs,
          t + 2 + 2 * rest.length, c'') := by
      simp [toolLoop, h0, hexec, hrec]
    rw [e1, e2]
    have harith : t + 2 + 2 * rest.length = t + 2 * (tc :: rest).length := by
      simp [List.length_cons]; ring
    rw [harith]

theorem toolLoop_complete_of_unaborted_end (E : Env) (tcs : List ToolCall) :
    ∀ (t : Nat) (c : ClientState),
      E.aborted (toolLoop E tcs t c).2.2.1 = false →
      (toolLoop E tcs t c).1.length = tcs.length := by
  induction tcs with
  | nil => intro t c _; rfl
  | cons tc rest ih =>
    intro t c hend
    by_cases h0 : E.aborted t = true
    · exfalso
      simp [toolLoop, h0] at hend
    · rw [Bool.not_eq_true] at h0
      obtain ⟨res, c', hexec⟩ : ∃ r s, executeToolCall E.fs c tc = (r, s) := ⟨_, _, rfl⟩
      obtain ⟨ais, evs, t', c'', hrec⟩ :
          ∃ a b u d, toolLoop E rest (t + 2) c' = (a, b, u, d) := ⟨_, _, _, _, rfl⟩
      have e2 : toolLoop E (tc :: rest) t c =
          (aiMsg res c' tc :: ais,
            (t, Ev.toolRun tc.id tc.function.name) ::
              (t + 1, Ev.outStr (uiLine tc res)) :: evs, t', c'') := by
        simp [toolLoop, h0, hexec, hrec]
      rw [e2] at hend ⊢
      simp only [List.length_cons]
      have := ih (t + 2) c' (by rw [hrec]; exact hend)
      rw [hrec] at this
      simpa using this

end GrokCli

namespace GrokCli

theorem swLoop_tool_step (E : Env) (fuel : Nat) (st : SWState)
    (content : Option String) (tcs : List ToolCall) (t1 : Nat)
    (ctr : List (Nat × Ev))
    (hab0 : E.aborted st.t = false)
    (hchat : chat E st.msgs true st.t = (.ok ⟨content, tcs⟩, t1, ctr))
    (hne : tcs ≠ []) :
    swLoop E (fuel + 1) st =
      (if E.aborted (toolLoop E tcs (t1 + 1) st.cst).2.2.1 = true then
        ({ st with t := (toolLoop E tcs (t1 + 1) st.cst).2.2.1,
                   cst := (toolLoop E tcs (t1 + 1) st.cst).2.2.2 },
         ((st.t, Ev.chatCall true) :: ctr) ++
           (t1, Ev.outStr (toolNotice tcs.length st.iter)) ::
             (toolLoop E tcs (t1 + 1) st.cst).2.1,
         none)
      else
        ((swLoop E fuel
            { msgs := st.msgs ++
                assistantEcho content tcs :: (toolLoop E tcs (t1 + 1) st.cst).1,
              iter := st.iter + 1,
              t := (toolLoop E tcs (t1 + 1) st.cst).2.2.1,
              cst := (toolLoop E tcs (t1 + 1) st.cst).2.2.2 }).1,
         (((st.t, Ev.chatCall true) :: ctr) ++
           (t1, Ev.outStr (toolNotice tcs.length st.iter)) ::
             (toolLoop E tcs (t1 + 1) st.cst).2.1) ++
           (swLoop E fuel
             { msgs := st.msgs ++
                 assistantEcho content tcs :: (toolLoop E tcs (t1 + 1) st.cst).1,
               iter := st.iter + 1,
               t := (toolLoop E tcs (t1 + 1) st.cst).2.2.1,
               cst := (toolLoop E tcs (t1 + 1) st.cst).2.2.2 }).2.1,
         (swLoop E fuel
            { msgs := st.msgs ++
                assistantEcho content tcs :: (toolLoop E tcs (t1 + 1) st.cst).1,
              iter := st.iter + 1,
              t := (toolLoop E tcs (t1 + 1) st.cst).2.2.1,
              cst := (toolLoop E tcs (t1 + 1) st.cst).2.2.2 }).2.2)) := by
  cases tcs with
  | nil => exact absurd rfl hne
  | cons hd tl =>
    conv_lhs => rw [swLoop]
    simp only [hab0, Bool.false_eq_true, if_false, hchat]

end GrokCli

namespace GrokCli

end GrokCli

namespace GrokCli

/-! ## Counting model requests -/

theorem chatGo_countTools (E : Env) (msgs : List Message) (u u' : Bool)
    (ms : List String) : ∀ t, countTools (chatGo E msgs u ms t).2.2 u' = 0 := by
  induction ms with
  | nil => intro t; rfl
  | cons m rest ih =>
    intro t
    rw [chatGo]
    split
    · simp [countTools, List.countP_cons]
      simpa [countTools] using ih (t + 1)
    · split
      · simp [countTools, List.countP_cons]
      · simp [countTools, List.countP_cons]
        simpa [countTools] using ih (t + 1)
      · simp [countTools, List.countP_cons]
        simpa [countTools] using ih (t + 1)

theorem chat_countTools (E : Env) (msgs : List Message) (u u' : Bool) (t : Nat) :
    countTools (chat E msgs u t).2.2 u' = 0 :=
  chatGo_countTools E msgs u u' modelNames t

theorem toolLoop_countTools (E : Env) (tcs : List ToolCall) (u : Bool) :
    ∀ t c, countTools (toolLoop E tcs t c).2.1 u = 0 := by
  induction tcs with
  | nil => intro t c; rfl
  | cons tc rest ih =>
    intro t c
    rw [toolLoop]
    split
    · rfl
    · simp [countTools, List.countP_cons]
      simpa [countTools] using ih (t + 2) (executeToolCall E.fs c tc).2

theorem charLoop_countTools (E : Env) (cs : List Char) (u : Bool) :
    ∀ t, countTools (charLoop E cs t).1 u = 0 := by
  induction cs with
  | nil => intro t; rfl
  | cons ch rest ih =>
    intro t
    rw [charLoop]
    split
    · rfl
    · simp [countTools, List.countP_cons]
      simpa [countTools] using ih (t + 1)

theorem swLoop_countTools_true (E : Env) :
    ∀ (fuel : Nat) (st : SWState), countTools (swLoop E fuel st).2.1 true ≤ fuel := by
  intro fuel
  induction fuel with
  | zero => intro st; simp [swLoop, countTools]
  | succ n ih =>
    intro st
    by_cases h0 : E.aborted st.t = true
    · rw [swLoop, if_pos h0]; simp [countTools]
    · obtain ⟨r, t1, ctr0, hchat⟩ : ∃ a b c, chat E st.msgs true st.t = (a, b, c) :=
        ⟨_, _, _, rfl⟩
      have hctr : ctr0.countP (fun e => decide (e.2 = Ev.chatCall true)) = 0 := by
        have := chat_countTools E st.msgs true true st.t
        rw [hchat] at this; exact this
      rw [swLoop, if_neg h0, hchat]
      simp only []
      split
      · simp [countTools, List.countP_cons, hctr]
      · rename_i resp
        split
        · have htool := toolLoop_countTools E resp.toolCalls true (t1 + 1) st.cst
          simp only [countTools] at htool
          split
          · simp [countTools, List.countP_cons, List.countP_append, hctr, htool]
          · simp only [countTools, List.countP_cons, List.countP_append, hctr, htool]
            have := ih ⟨st.msgs ++ assistantEcho resp.content resp.toolCalls :: (toolLoop E resp.toolCalls (t1 + 1) st.cst).1, st.iter + 1, (toolLoop E resp.toolCalls (t1 + 1) st.cst).2.2.1, (toolLoop E resp.toolCalls (t1 + 1) st.cst).2.2.2⟩
            simp only [countTools] at this
            simp
            omega
        · split
          · have hcl := charLoop_countTools E (resp.content.getD "").data true t1
            simp only [countTools] at hcl
            simp [countTools, List.countP_cons, List.countP_append, hctr, hcl]
          · simp [countTools, List.countP_cons, hctr]

end GrokCli

namespace GrokCli

theorem swLoop_countTools_false (E : Env) :
    ∀ (fuel : Nat) (st : SWState), countTools (swLoop E fuel st).2.1 false = 0 := by
  intro fuel
  induction fuel with
  | zero => intro st; simp [swLoop, countTools]
  | succ n ih =>
    intro st
    by_cases h0 : E.aborted st.t = true
    · rw [swLoop, if_pos h0]; simp [countTools]
    · obtain ⟨r, t1, ctr0, hchat⟩ : ∃ a b c, chat E st.msgs true st.t = (a, b, c) :=
        ⟨_, _, _, rfl⟩
      have hctr : ctr0.countP (fun e => decide (e.2 = Ev.chatCall false)) = 0 := by
        have := chat_countTools E st.msgs true false st.t
        rw [hchat] at this; exact this
      rw [swLoop, if_neg h0, hchat]
      simp only []
      split
      · simp [countTools, List.countP_cons, hctr]
      · rename_i resp
        split
        · have htool := toolLoop_countTools E resp.toolCalls false (t1 + 1) st.cst
          simp only [countTools] at htool
          split
          · simp [countTools, List.countP_cons, List.countP_append, hctr, htool]
          · simp only [countTools, List.countP_cons, List.countP_append, hctr, htool]
            have := ih ⟨st.msgs ++ assistantEcho resp.content resp.toolCalls :: (toolLoop E resp.toolCalls (t1 + 1) st.cst).1, st.iter + 1, (toolLoop E resp.toolCalls (t1 + 1) st.cst).2.2.1, (toolLoop E resp.toolCalls (t1 + 1) st.cst).2.2.2⟩
            simp only [countTools] at this
            simp [this, hctr, htool]
        · split
          · have hcl := charLoop_countTools E (resp.content.getD "").data false t1
            simp only [countTools] at hcl
            simp [countTools, List.countP_cons, List.countP_append, hctr, hcl]
          · simp [countTools, List.countP_cons, hctr]

end GrokCli

namespace GrokCli

/-- C3: the streaming tool-call loop performs at most `maxIterations`
(25) tools-enabled model requests per submitted message, at most one
tools-disabled request, and when the loop ends without a thrown error
having reached the iteration ceiling, the trace continues with exactly
the ceiling notice followed by exactly one tools-disabled model request
(the tail holds no further model request of either kind) whose content is
then streamed before termination. -/
theorem streamWithTools_iteration_ceiling (E : Env) (messages : List Message) (t0 : Nat) :
    countTools (streamWithTools E messages t0).2.1 true ≤ maxIterations ∧
    countTools (streamWithTools E messages t0).2.1 false ≤ 1 ∧
    ((swLoop E maxIterations ⟨messages, 0, t0, ⟨none, []⟩⟩).2.2 = none →
      maxIterations ≤ (swLoop E maxIterations ⟨messages, 0, t0, ⟨none, []⟩⟩).1.iter →
      ∃ tail,
        (streamWithTools E messages t0).2.1 =
          (swLoop E maxIterations ⟨messages, 0, t0, ⟨none, []⟩⟩).2.1 ++
            ((swLoop E maxIterations ⟨messages, 0, t0, ⟨none, []⟩⟩).1.t,
              Ev.outStr ceilingNotice) ::
            ((swLoop E maxIterations ⟨messages, 0, t0, ⟨none, []⟩⟩).1.t + 1,
              Ev.chatCall false) :: tail ∧
        countTools tail true = 0 ∧ countTools tail false = 0) := by
  obtain ⟨Lst, Levs, Lerr, hL⟩ :
      ∃ a b c, swLoop E maxIterations ⟨messages, 0, t0, ⟨none, []⟩⟩ = (a, b, c) :=
    ⟨_, _, _, rfl⟩
  have hLtrue : Levs.countP (fun e => decide (e.2 = Ev.chatCall true)) ≤ maxIterations := by
    have := swLoop_countTools_true E maxIterations ⟨messages, 0, t0, ⟨none, []⟩⟩
    rw [hL] at this; exact this
  have hLfalse : Levs.countP (fun e => decide (e.2 = Ev.chatCall false)) = 0 := by
    have := swLoop_countTools_false E maxIterations ⟨messages, 0, t0, ⟨none, []⟩⟩
    rw [hL] at this; exact this
  rw [streamWithTools]
  simp only [hL]
  cases Lerr with
  | some e =>
    simp only []
    refine ⟨by simpa [countTools] using hLtrue, by simp [countTools, hLfalse], ?_⟩
    intro hnone
    simp at hnone
  | none =>
    simp only []
    by_cases hiter : maxIterations ≤ Lst.iter
    · rw [if_pos hiter]
      obtain ⟨r, t1, ctr0, hchat⟩ : ∃ a b c, chat E Lst.msgs false (Lst.t + 1) = (a, b, c) :=
        ⟨_, _, _, rfl⟩
      have hctrT : ctr0.countP (fun e => decide (e.2 = Ev.chatCall true)) = 0 := by
        have := chat_countTools E Lst.msgs false true (Lst.t + 1)
        rw [hchat] at this; exact this
      have hctrF : ctr0.countP (fun e => decide (e.2 = Ev.chatCall false)) = 0 := by
        have := chat_countTools E Lst.msgs false false (Lst.t + 1)
        rw [hchat] at this; exact this
      rw [hchat]
      simp only []
      split
      · refine ⟨?_, ?_, ?_⟩
        · simp [countTools, List.countP_append, List.countP_cons, hctrT]
          omega
        · simp [countTools, List.countP_append, List.countP_cons, hLfalse, hctrF]
        · intro h1 h2
          exact ⟨ctr0, rfl, by simpa [countTools] using hctrT,
            by simpa [countTools] using hctrF⟩
      · rename_i resp
        by_cases hct : strTruthy resp.content = true
        · rw [if_pos hct]
          have hclT := charLoop_countTools E (resp.content.getD "").data true t1
          have hclF := charLoop_countTools E (resp.content.getD "").data false t1
          simp only [countTools] at hclT hclF
          refine ⟨?_, ?_, ?_⟩
          · simp [countTools, List.countP_append, List.countP_cons, hctrT, hclT]
            omega
          · simp [countTools, List.countP_append, List.countP_cons, hLfalse, hctrF, hclF]
          · intro h1 h2
            refine ⟨ctr0 ++ (charLoop E (resp.content.getD "").data t1).1, ?_,
              by simp [countTools, List.countP_append, hctrT, hclT],
              by simp [countTools, List.countP_append, hctrF, hclF]⟩
            simp [List.append_assoc]
        · rw [if_neg hct]
          refine ⟨?_, ?_, ?_⟩
          · simp [countTools, List.countP_append, List.countP_cons, hctrT]
            omega
          · simp [countTools, List.countP_append, List.countP_cons, hLfalse, hctrF]
          · intro h1 h2
            exact ⟨ctr0, rfl, by simpa [countTools] using hctrT,
              by simpa [countTools] using hctrF⟩
    · rw [if_neg hiter]
      refine ⟨by simpa [countTools] using hLtrue, by simp [countTools, hLfalse], ?_⟩
      intro h1 h2
      exact absurd h2 hiter

end GrokCli

namespace GrokCli

/-! ## Guarded events occur only at unaborted times -/

theorem chatGo_guard (E : Env) (msgs : List Message) (u : Bool) :
    ∀ (ms : List String) (t : Nat) (p : Nat × Ev),
      p ∈ (chatGo E msgs u ms t).2.2 → evGuarded p.2 = true →
      E.aborted p.1 = false := by
  intro ms
  induction ms with
  | nil => intro t p hp _; simp [chatGo] at hp
  | cons m rest ih =>
    intro t p hp hg
    rw [chatGo] at hp
    by_cases h0 : E.aborted t = true
    · rw [if_pos h0] at hp
      simp only [List.mem_cons] at hp
      rcases hp with h | h
      · subst h; simp [evGuarded] at hg
      · exact ih (t + 1) p h hg
    · rw [if_neg h0] at hp
      rw [Bool.not_eq_true] at h0
      split at hp
      · simp only [List.mem_singleton] at hp
        subst hp; exact h0
      · simp only [List.mem_cons] at hp
        rcases hp with h | h
        · subst h; exact h0
        · exact ih (t + 1) p h hg
      · simp only [List.mem_cons] at hp
        rcases hp with h | h
        · subst h; exact h0
        · exact ih (t + 1) p h hg

theorem chat_guard (E : Env) (msgs : List Message) (u : Bool) (t : Nat)
    (p : Nat × Ev) (hp : p ∈ (chat E msgs u t).2.2) (hg : evGuarded p.2 = true) :
    E.aborted p.1 = false :=
  chatGo_guard E msgs u modelNames t p hp hg

theorem toolLoop_guard (E : Env) :
    ∀ (tcs : List ToolCall) (t : Nat) (c : ClientState) (p : Nat × Ev),
      p ∈ (toolLoop E tcs t c).2.1 → evGuarded p.2 = true →
      E.aborted p.1 = false := by
  intro tcs
  induction tcs with
  | nil => intro t c p hp _; simp [toolLoop] at hp
  | cons tc rest ih =>
    intro t c p hp hg
    rw [toolLoop] at hp
    by_cases h0 : E.aborted t = true
    · rw [if_pos h0] at hp; simp at hp
    · rw [if_neg h0] at hp
      rw [Bool.not_eq_true] at h0
      simp only [List.mem_cons] at hp
      rcases hp with h | h | h
      · subst h; exact h0
      · subst h; simp [evGuarded] at hg
      · exact ih (t + 2) _ p h hg

theorem charLoop_guard (E : Env) :
    ∀ (cs : List Char) (t : Nat) (p : Nat × Ev),
      p ∈ (charLoop E cs t).1 → evGuarded p.2 = true →
      E.aborted p.1 = false := by
  intro cs
  induction cs with
  | nil => intro t p hp _; simp [charLoop] at hp
  | cons ch rest ih =>
    intro t p hp hg
    rw [charLoop] at hp
    by_cases h0 : E.aborted t = true
    · rw [if_pos h0] at hp; simp at hp
    · rw [if_neg h0] at hp
      rw [Bool.not_eq_true] at h0
      simp only [List.mem_cons] at hp
      rcases hp with h | h
      · subst h; exact h0
      · exact ih (t + 1) p h hg

theorem swLoop_guard (E : Env) :
    ∀ (fuel : Nat) (st : SWState) (p : Nat × Ev),
      p ∈ (swLoop E fuel st).2.1 → evGuarded p.2 = true →
      E.aborted p.1 = false := by
  intro fuel
  induction fuel with
  | zero => intro st p hp _; simp [swLoop] at hp
  | succ n ih =>
    intro st p hp hg
    by_cases h0 : E.aborted st.t = true
    · rw [swLoop, if_pos h0] at hp; simp at hp
    · obtain ⟨r, t1, ctr0, hchat⟩ : ∃ a b c, chat E st.msgs true st.t = (a, b, c) :=
        ⟨_, _, _, rfl⟩
      have hctr : ∀ q ∈ ctr0, evGuarded q.2 = true → E.aborted q.1 = false := by
        intro q hq
        have := chat_guard E st.msgs true st.t q
        rw [hchat] at this
        exact this hq
      rw [swLoop, if_neg h0, hchat] at hp
      simp only [] at hp
      split at hp
      · simp only [List.mem_cons] at hp
        rcases hp with h | h
        · subst h; simp [evGuarded] at hg
        · exact hctr p h hg
      · rename_i resp
        split at hp
        · split at hp
          · simp only [List.cons_append, List.append_assoc, List.mem_cons,
              List.mem_append] at hp
            rcases hp with h | h | h | h
            · subst h; simp [evGuarded] at hg
            · exact hctr p h hg
            · subst h; simp [evGuarded] at hg
            · exact toolLoop_guard E resp.toolCalls (t1 + 1) st.cst p h hg
          · simp only [List.cons_append, List.append_assoc, List.mem_cons,
              List.mem_append] at hp
            rcases hp with h | h | h | h | h
            · subst h; simp [evGuarded] at hg
            · exact hctr p h hg
            · subst h; simp [evGuarded] at hg
            · exact toolLoop_guard E resp.toolCalls (t1 + 1) st.cst p h hg
            · exact ih _ p h hg
        · split at hp
          · simp only [List.cons_append, List.append_assoc, List.mem_cons,
              List.mem_append] at hp
            rcases hp with h | h | h
            · subst h; simp [evGuarded] at hg
            · exact hctr p h hg
            · exact charLoop_guard E _ t1 p h hg
          · simp only [List.mem_cons] at hp
            rcases hp with h | h
            · subst h; simp [evGuarded] at hg
            · exact hctr p h hg

end GrokCli

namespace GrokCli

theorem streamWithTools_guard (E : Env) (messages : List Message) (t0 : Nat)
    (p : Nat × Ev) (hp : p ∈ (streamWithTools E messages t0).2.1)
    (hg : evGuarded p.2 = true) : E.aborted p.1 = false := by
  obtain ⟨Lst, Levs, Lerr, hL⟩ :
      ∃ a b c, swLoop E maxIterations ⟨messages, 0, t0, ⟨none, []⟩⟩ = (a, b, c) :=
    ⟨_, _, _, rfl⟩
  have hLev : ∀ q ∈ Levs, evGuarded q.2 = true → E.aborted q.1 = false := by
    intro q hq
    have := swLoop_guard E maxIterations ⟨messages, 0, t0, ⟨none, []⟩⟩ q
    rw [hL] at this
    exact this hq
  rw [streamWithTools] at hp
  simp only [hL] at hp
  cases Lerr with
  | some e =>
    simp only [] at hp
    exact hLev p hp hg
  | none =>
    simp only [] at hp
    by_cases hiter : maxIterations ≤ Lst.iter
    · rw [if_pos hiter] at hp
      obtain ⟨r, t1, ctr0, hchat⟩ : ∃ a b c, chat E Lst.msgs false (Lst.t + 1) = (a, b, c) :=
        ⟨_, _, _, rfl⟩
      have hctr : ∀ q ∈ ctr0, evGuarded q.2 = true → E.aborted q.1 = false := by
        intro q hq
        have := chat_guard E Lst.msgs false (Lst.t + 1) q
        rw [hchat] at this
        exact this hq
      rw [hchat] at hp
      simp only [] at hp
      split at hp
      · simp only [List.cons_append, List.append_assoc, List.mem_cons,
          List.mem_append] at hp
        rcases hp with h | h | h | h
        · exact hLev p h hg
        · subst h; simp [evGuarded] at hg
        · subst h; simp [evGuarded] at hg
        · exact hctr p h hg
      · rename_i resp
        split at hp
        · simp only [List.cons_append, List.append_assoc, List.mem_cons,
            List.mem_append] at hp
          rcases hp with h | h | h | h | h
          · exact hLev p h hg
          · subst h; simp [evGuarded] at hg
          · subst h; simp [evGuarded] at hg
          · exact hctr p h hg
          · exact charLoop_guard E _ t1 p h hg
        · simp only [List.cons_append, List.append_assoc, List.mem_cons,
            List.mem_append] at hp
          rcases hp with h | h | h | h
          · exact hLev p h hg
          · subst h; simp [evGuarded] at hg
          · subst h; simp [evGuarded] at hg
          · exact hctr p h hg
    · rw [if_neg hiter] at hp
      exact hLev p hp hg

end GrokCli

namespace GrokCli

theorem processLinesS_unguarded (E : Env) (model : String) :
    ∀ (lines : List String) (t : Nat) (p : Nat × CsEv),
      p ∈ (processLinesS E model lines t).1 → csEvGuarded p.2 = false := by
  intro lines
  induction lines with
  | nil => intro t p hp; simp [processLinesS] at hp
  | cons line rest ih =>
    intro t p hp
    rw [processLinesS] at hp
    split at hp
    · simp only [] at hp
      split at hp
      · simp at hp
      · split at hp
        · split at hp
          · exact ih t p hp
          · simp only [List.mem_cons] at hp
            rcases hp with h | h
            · subst h; rfl
            · exact ih (t + 1) p h
        · exact ih t p hp
        · exact ih t p hp
    · exact ih t p hp

theorem readLoop_guard (E : Env) (model : String) :
    ∀ (reads : List ReadEv) (t : Nat) (p : Nat × CsEv),
      p ∈ (readLoop E model reads t).1 → csEvGuarded p.2 = true →
      E.aborted p.1 = false := by
  intro reads
  induction reads with
  | nil => intro t p hp _; simp [readLoop] at hp
  | cons r rest ih =>
    intro t p hp hg
    rw [readLoop] at hp
    by_cases h0 : E.aborted t = true
    · rw [if_pos h0] at hp; simp at hp
    · rw [if_neg h0] at hp
      rw [Bool.not_eq_true] at h0
      split at hp
      · simp only [List.mem_singleton] at hp
        subst hp; exact h0
      · simp only [List.mem_singleton] at hp
        subst hp; exact h0
      · simp only [] at hp
        split at hp
        · simp only [List.mem_cons] at hp
          rcases hp with h | h
          · subst h; exact h0
          · have := processLinesS_unguarded E model _ _ p h
            rw [hg] at this
            exact absurd this (by simp)
        · simp only [List.cons_append, List.append_assoc, List.mem_cons,
            List.mem_append] at hp
          rcases hp with h | h | h
          · subst h; exact h0
          · have := processLinesS_unguarded E model _ _ p h
            rw [hg] at this
            exact absurd this (by simp)
          · exact ih _ p h hg

theorem csModelLoop_guard (E : Env) (msgs : List Message) :
    ∀ (ms : List String) (t : Nat) (p : Nat × CsEv),
      p ∈ (csModelLoop E msgs ms t).1 → csEvGuarded p.2 = true →
      E.aborted p.1 = false := by
  intro ms
  induction ms with
  | nil => intro t p hp _; simp [csModelLoop] at hp
  | cons m rest ih =>
    intro t p hp hg
    rw [csModelLoop] at hp
    by_cases h0 : E.aborted t = true
    · rw [if_pos h0] at hp
      simp only [List.mem_cons] at hp
      rcases hp with h | h
      · subst h; simp [csEvGuarded] at hg
      · exact ih (t + 1) p h hg
    · rw [if_neg h0] at hp
      rw [Bool.not_eq_true] at h0
      split at hp
      · simp only [List.mem_cons] at hp
        rcases hp with h | h
        · subst h; exact h0
        · exact ih (t + 1) p h hg
      · split at hp
        · simp only [List.mem_cons] at hp
          rcases hp with h | h
          · subst h; exact h0
          · exact ih (t + 1) p h hg
        · simp only [List.mem_cons] at hp
          rcases hp with h | h
          · subst h; exact h0
          · exact ih (t + 1) p h hg
      · simp only [] at hp
        split at hp
        · simp only [List.mem_cons] at hp
          rcases hp with h | h
          · subst h; exact h0
          · exact readLoop_guard E m _ _ p h hg
        · simp only [List.cons_append, List.append_assoc, List.mem_cons,
            List.mem_append] at hp
          rcases hp with h | h | h
          · subst h; exact h0
          · exact readLoop_guard E m _ _ p h hg
          · exact ih _ p h hg

end GrokCli

namespace GrokCli

/-! ## Fragment attribution in the plain streaming call -/

theorem fragModels_append (l1 l2 : List (Nat × CsEv)) :
    fragModels (l1 ++ l2) = fragModels l1 ++ fragModels l2 := by
  simp [fragModels, List.filterMap_append]

theorem processLinesS_frags (E : Env) (model : String) :
    ∀ (lines : List String) (t : Nat),
      ∃ k, fragModels (processLinesS E model lines t).1 = List.replicate k model := by
  intro lines
  induction lines with
  | nil => intro t; exact ⟨0, rfl⟩
  | cons line rest ih =>
    intro t
    rw [processLinesS]
    split
    · simp only []
      split
    
      · exact ⟨0, rfl⟩
      · split
        · split
          · exact ih t
          · obtain ⟨k, hk⟩ := ih (t + 1)
            refine ⟨k + 1, ?_⟩
            simp [fragModels, List.replicate_succ] at hk ⊢
            exact hk
        · exact ih t
        · exact ih t
    · exact ih t

theorem readLoop_frags (E : Env) (model : String) :
    ∀ (reads : List ReadEv) (t : Nat),
      ∃ k, fragModels (readLoop E model reads t).1 = List.replicate k model := by
  intro reads
  induction reads with
  | nil => intro t; exact ⟨0, rfl⟩
  | cons r rest ih =>
    intro t
    rw [readLoop]
    split
    · exact ⟨0, rfl⟩
    · split
      · exact ⟨0, rfl⟩
      · exact ⟨0, rfl⟩
      · rename_i s
        simp only []
        split
        · obtain ⟨k, hk⟩ := processLinesS_frags E model (splitLines s) (t + 1)
          exact ⟨k, hk⟩
        · obtain ⟨k1, hk1⟩ := processLinesS_frags E model (splitLines s) (t + 1)
          obtain ⟨k2, hk2⟩ := ih (processLinesS E model (splitLines s) (t + 1)).2.1
          refine ⟨k1 + k2, ?_⟩
          show fragModels ((processLinesS E model (splitLines s) (t + 1)).1 ++
            (readLoop E model rest
              (processLinesS E model (splitLines s) (t + 1)).2.1).1) =
            List.replicate (k1 + k2) model
          rw [fragModels_append, hk1, hk2, ← List.replicate_add]

end GrokCli

namespace GrokCli

theorem csModelLoop_frags_grouped (E : Env) (msgs : List Message) :
    ∀ (ms : List String) (t : Nat),
      ∃ ks : List Nat, ks.length ≤ ms.length ∧
        fragModels (csModelLoop E msgs ms t).1 =
          ((ms.take ks.length).zip ks).bind fun q => List.replicate q.2 q.1 := by
  intro ms
  induction ms with
  | nil => intro t; exact ⟨[], by simp, by simp [csModelLoop, fragModels]⟩
  | cons m rest ih =>
    intro t
    rw [csModelLoop]
    split
    · obtain ⟨ks, hlen, hdec⟩ := ih (t + 1)
      refine ⟨0 :: ks, by simpa using hlen, ?_⟩
      show fragModels (csModelLoop E msgs rest (t + 1)).1 = _
      simp only [List.length_cons, List.take, List.zip_cons_cons, List.cons_bind,
        List.replicate_zero, List.nil_append]
      exact hdec
    · split
      · obtain ⟨ks, hlen, hdec⟩ := ih (t + 1)
        refine ⟨0 :: ks, by simpa using hlen, ?_⟩
        show fragModels (csModelLoop E msgs rest (t + 1)).1 = _
        simp only [List.length_cons, List.take, List.zip_cons_cons, List.cons_bind,
          List.replicate_zero, List.nil_append]
        exact hdec
      · split
        · obtain ⟨ks, hlen, hdec⟩ := ih (t + 1)
          refine ⟨0 :: ks, by simpa using hlen, ?_⟩
          show fragModels (csModelLoop E msgs rest (t + 1)).1 = _
          simp only [List.length_cons, List.take, List.zip_cons_cons, List.cons_bind,
            List.replicate_zero, List.nil_append]
          exact hdec
        · obtain ⟨ks, hlen, hdec⟩ := ih (t + 1)
          refine ⟨0 :: ks, by simpa using hlen, ?_⟩
          show fragModels (csModelLoop E msgs rest (t + 1)).1 = _
          simp only [List.length_cons, List.take, List.zip_cons_cons, List.cons_bind,
            List.replicate_zero, List.nil_append]
          exact hdec
      · rename_i reads heq
        simp only []
        split
        · obtain ⟨k, hk⟩ := readLoop_frags E m reads (t + 1)
          refine ⟨[k], by simp, ?_⟩
          show fragModels (readLoop E m reads (t + 1)).1 = _
          simp only [List.length_cons, List.length_nil, List.take, List.zip_cons_cons,
            List.zip_nil_right, List.cons_bind, List.nil_bind, List.append_nil]
          exact hk
        · obtain ⟨k, hk⟩ := readLoop_frags E m reads (t + 1)
          obtain ⟨ks, hlen, hdec⟩ := ih (readLoop E m reads (t + 1)).2.1
          refine ⟨k :: ks, by simpa using hlen, ?_⟩
          show fragModels ((readLoop E m reads (t + 1)).1 ++
            (csModelLoop E msgs rest (readLoop E m reads (t + 1)).2.1).1) = _
          rw [fragModels_append, hk, hdec]
          simp only [List.length_cons, List.take, List.zip_cons_cons, List.cons_bind]

end GrokCli

namespace GrokCli

theorem csModelLoop_frag_tag_mem (E : Env) (msgs : List Message)
    (ms : List String) (t : Nat) (τ : Nat) (m : String) (s : String)
    (h : (τ, CsEv.frag m s) ∈ (csModelLoop E msgs ms t).1) : m ∈ ms := by
  have hmem : m ∈ fragModels (csModelLoop E msgs ms t).1 := by
    simp only [fragModels, List.mem_filterMap]
    exact ⟨(τ, CsEv.frag m s), h, rfl⟩
  obtain ⟨ks, hlen, hdec⟩ := csModelLoop_frags_grouped E msgs ms t
  rw [hdec] at hmem
  simp only [List.mem_bind] at hmem
  obtain ⟨q, hq, hrep⟩ := hmem
  have hm : m = q.1 := List.eq_of_mem_replicate hrep
  subst hm
  have := List.of_mem_zip hq
  exact List.take_subset _ _ this.1

theorem csModelLoop_prefail_no_frag (E : Env) (msgs : List Message)
    (m : String) (rest : List String) (t : Nat) (hm : m ∉ rest)
    (hfail : E.aborted t = true ∨
      (∃ e, E.transportS t m msgs = StreamFetch.netErr e) ∨
      ∃ s1 s2 s3, E.transportS t m msgs = StreamFetch.httpErr s1 s2 s3) :
    ∀ τ s, (τ, CsEv.frag m s) ∉ (csModelLoop E msgs (m :: rest) t).1 := by
  intro τ s hmem
  rw [csModelLoop] at hmem
  by_cases h0 : E.aborted t = true
  · rw [if_pos h0] at hmem
    simp only [List.mem_cons] at hmem
    rcases hmem with h | h
    · simp at h
    · exact hm (csModelLoop_frag_tag_mem E msgs rest (t + 1) τ m s h)
  · rw [if_neg h0] at hmem
    split at hmem
    · simp only [List.mem_cons] at hmem
      rcases hmem with h | h
      · simp at h
      · exact hm (csModelLoop_frag_tag_mem E msgs rest (t + 1) τ m s h)
    · split at hmem
      · simp only [List.mem_cons] at hmem
        rcases hmem with h | h
        · simp at h
        · exact hm (csModelLoop_frag_tag_mem E msgs rest (t + 1) τ m s h)
      · simp only [List.mem_cons] at hmem
        rcases hmem with h | h
        · simp at h
        · exact hm (csModelLoop_frag_tag_mem E msgs rest (t + 1) τ m s h)
    · rename_i reads heq
      rcases hfail with h | ⟨e, hf⟩ | ⟨s1, s2, s3, hf⟩
      · exact h0 h
      · rw [hf] at heq; simp at heq
      · rw [hf] at heq; simp at heq

end GrokCli

namespace GrokCli

theorem executeToolCallExc_ok_shape (env : FsEnv) (st : ClientState) (tc : ToolCall)
    (r : Message) (st' : ClientState)
    (h : executeToolCallExc env st tc = (.ok r, st')) :
    r.role = "tool" ∧ r.tool_call_id = some tc.id ∧ r.name = some tc.function.name := by
  unfold executeToolCallExc readFileArm at h
  cases hp : env.parseArgs tc.function.arguments with
  | error e => rw [hp] at h; simp at h
  | ok args =>
    rw [hp] at h
    simp only at h
    repeat' split at h
    all_goals (injection h with hA hB)
    all_goals (first | (injection hA with hC; subst hC; simp [mkToolResult]) | injection hA)

end GrokCli


namespace GrokCli

/-! ## Claim theorems -/

/-- C1: the claim says a non-retryable failure (non-2xx, not 503, body
without "unavailable") aborts the fallback chat call immediately, with no
request to any later model and the error propagated.  The code violates
this: the deliberately thrown fatal error is caught by the per-model
catch, which continues to the next model.  Concretely, with the first
model answering HTTP 400 with body "bad request body" (no "unavailable"
marker) and the second model answering 200, the embedded chat issues a
request to the second model (the trace holds both fetches) and returns
its result instead of propagating the fatal error. -/
theorem chat_fatal_error_continues_to_next_model :
    E1.transport 0 "grok-4" [msgU] true = .httpErr 400 "Bad Request" "bad request body" ∧
    includesStr "bad request body" "unavailable" = false ∧
    chat E1 [msgU] true 0 =
      (.ok ⟨some "hi", []⟩, 2,
        [(0, Ev.fetchIssued "grok-4" true), (1, Ev.fetchIssued "grok-beta" true)]) :=
  ⟨rfl, by decide, by rfl⟩

set_option maxRecDepth 10000 in
/-- C2 counterexample: the overflow cache entry created by a long
`readFile` does not store the raw file content: it stores the full
`readFileImpl` result, which is the file content prefixed with the header
line.  With a 501-character file at path /f, the cached full text differs
from the file content. -/
theorem readFile_cache_not_raw_content :
    fs2.readFile "/f" = .ok bigContent ∧
    (executeToolCall fs2 {} tcRead).1._cached = true ∧
    cacheGet ((executeToolCall fs2 {} tcRead).2.toolResultsCache) "id2" =
      some ⟨"/tmp/grok-cli-x/tool_id2.txt", "Contents of /f:\n" ++ bigContent⟩ ∧
    ("Contents of /f:\n" ++ bigContent) ≠ bigContent := by
  refine ⟨rfl, by decide, by decide, by decide⟩

/-- C2 amended: a `readFile` tool call whose result text (the file content
prefixed with the `Contents of <path>:` header) exceeds 500 characters
returns a ToolResult flagged cached with a summary content built from the
character count and the line count of that result text, and creates an
overflow cache entry keyed by the tool-call identifier whose stored full
text equals that result text exactly (hence it determines the file
content, but is not equal to it). -/
theorem readFile_overflow_roundtrip
    (env : FsEnv) (st st' : ClientState) (tc : ToolCall) (args : ToolArgs)
    (p fullPath content td : String)
    (hname : tc.function.name = "readFile")
    (hparse : env.parseArgs tc.function.arguments = .ok args)
    (hpath : args.path = some p) (hp : p ≠ "")
    (hres : env.resolve p = fullPath)
    (hread : env.readFile fullPath = .ok content)
    (hlen : 500 < ("Contents of " ++ fullPath ++ ":\n" ++ content).length)
    (htd : initTempDir env st = (.ok td, st'))
    (hw : env.writeFile (td ++ "/tool_" ++ tc.id ++ ".txt")
        (some ("Contents of " ++ fullPath ++ ":\n" ++ content)) = .ok ()) :
    executeToolCall env st tc =
      (mkToolResult tc
        ("📄 Read file: " ++ p ++ " (" ++
          toString ("Contents of " ++ fullPath ++ ":\n" ++ content).length ++
          " bytes, " ++
          toString (splitLines ("Contents of " ++ fullPath ++ ":\n" ++ content)).length ++
          " lines)\n[Full content cached for AI analysis]") true,
       { tempDir := st'.tempDir,
         toolResultsCache := cacheSet st'.toolResultsCache tc.id
           ⟨td ++ "/tool_" ++ tc.id ++ ".txt",
            "Contents of " ++ fullPath ++ ":\n" ++ content⟩ }) := by
  have himpl : readFileImpl env args = "Contents of " ++ fullPath ++ ":\n" ++ content := by
    simp [readFileImpl, resolveOpt, hpath, hres, hread]
  unfold executeToolCall executeToolCallExc
  rw [hparse]
  simp only [hname, if_true]
  unfold readFileArm
  simp only [himpl]
  rw [if_pos hlen, htd]
  simp [hw, hpath, hp, mkToolResult]

set_option maxRecDepth 10000 in
/-- C2 witness: the amended theorem applied to the concrete 501-character
file scenario. -/
theorem readFile_overflow_roundtrip_witness :
    (executeToolCall fs2 {} tcRead).1._cached = true ∧
    cacheGet ((executeToolCall fs2 {} tcRead).2.toolResultsCache) "id2" =
      some ⟨"/tmp/grok-cli-x/tool_id2.txt", "Contents of /f:\n" ++ bigContent⟩ := by
  have h := readFile_overflow_roundtrip fs2 {} ⟨some "/tmp/grok-cli-x", []⟩ tcRead
    { path := some "/f" } "/f" "/f" bigContent "/tmp/grok-cli-x"
    rfl rfl rfl (by decide) rfl rfl (by decide) rfl rfl
  rw [h]
  exact ⟨rfl, by decide⟩

/-- C3 witness: the request bound applied to a concrete run. -/
theorem streamWithTools_iteration_ceiling_witness :
    countTools (streamWithTools E1 [msgU] 0).2.1 true ≤ maxIterations :=
  (streamWithTools_iteration_ceiling E1 [msgU] 0).1

/-- C4 counterexample: output units can be emitted after the token has
fired, refuting the claim that zero output units follow the cancellation
point.  In the concrete scenario the token fires at time 3, during the
execution of the tool call dispatched at time 2, and the per-tool result
line is still yielded at time 3. -/
theorem output_after_abort_cex :
    E4.aborted 2 = false ∧ E4.aborted 3 = true ∧
    ((3 : Nat), Ev.outStr "📋 **listFiles**: Error listing files: ENOENT\n\n") ∈
      (streamWithTools E4 [msgU] 0).2.1 :=
  ⟨by decide, by decide, by decide⟩

/-- C4 amended: once the token has fired, the loops dispatch no further
guarded action: every network request actually issued, every tool
execution, every final-answer character of `streamWithTools`, and every
fetch or read of `chatStream`, occurs at a time at which the token has
not fired.  (Unguarded output units — the tool-progress notice, the
per-tool result line, the ceiling notice, and fragments already decoded
from the current chunk — may still be emitted after firing, as the
counterexample shows.) -/
theorem guarded_actions_unaborted (E : Env) (msgs : List Message) (t0 : Nat) :
    (∀ p ∈ (streamWithTools E msgs t0).2.1, evGuarded p.2 = true →
      E.aborted p.1 = false) ∧
    (∀ p ∈ (chatStream E msgs t0).1, csEvGuarded p.2 = true →
      E.aborted p.1 = false) :=
  ⟨fun p hp hg => streamWithTools_guard E msgs t0 p hp hg,
   fun p hp hg => csModelLoop_guard E msgs modelNames t0 p hp hg⟩

/-- C4 witness: the amended theorem applied to the cancellation scenario,
at the tool execution dispatched at time 2 (before the token fires). -/
theorem guarded_actions_unaborted_witness : E4.aborted 2 = false :=
  (guarded_actions_unaborted E4 [msgU] 0).1 (2, Ev.toolRun "id1" "listFiles")
    (by decide) (by decide)

/-- C5: a model turn of the loop that requests `n ≥ 1` tool calls and
completes without the token firing grows the working history by exactly
one assistant message echoing the request followed by exactly `n`
tool-result messages in call order, before the next model request (the
recursive `swLoop` call on `nextSW`); each result is the executor result
with the full cached content substituted when flagged cached. -/
theorem tool_turn_appends_block (E : Env) (fuel : Nat) (st : SWState)
    (content : Option String) (tcs : List ToolCall) (t1 : Nat)
    (ctr : List (Nat × Ev))
    (hchat : chat E st.msgs true st.t = (.ok ⟨content, tcs⟩, t1, ctr))
    (hab0 : E.aborted st.t = false)
    (hne : tcs ≠ [])
    (hab : ∀ τ, τ ≤ t1 + 1 + 2 * tcs.length → E.aborted τ = false) :
    ToolTurnSpec E fuel st content tcs t1 ctr := by
  refine ⟨toolLoopPure_length E.fs tcs st.cst,
    (fun i => toolLoopPure_get? E.fs tcs st.cst i), ?_⟩
  obtain ⟨tevs, htl⟩ := toolLoop_eq_pure E tcs (t1 + 1) st.cst
    (fun τ hτ => hab τ (by omega))
  have habE : E.aborted (t1 + 1 + 2 * tcs.length) = false := hab _ le_rfl
  refine ⟨tevs, ?_⟩
  rw [swLoop_tool_step E fuel st content tcs t1 ctr hab0 hchat hne]
  rw [htl]
  simp only [habE, Bool.false_eq_true, if_false, nextSW, List.append_assoc,
    List.cons_append]

/-- C5 witness: the tool-turn theorem applied to a concrete unaborted
one-tool turn. -/
theorem tool_turn_appends_block_witness :
    ToolTurnSpec E5 24 ⟨[msgU], 0, 0, ⟨none, []⟩⟩ (some "k") [tc0] 1
      [(0, Ev.fetchIssued "grok-4" true)] :=
  tool_turn_appends_block E5 24 ⟨[msgU], 0, 0, ⟨none, []⟩⟩ (some "k") [tc0] 1
    [(0, Ev.fetchIssued "grok-4" true)] (by rfl) rfl (by decide) (fun τ _ => rfl)

/-- C6 counterexample: fragments of two different models are yielded in
one chatStream call.  The first model streams "Hello" and then errors
mid-read; the per-model catch retries the next model, which streams
"World", so the caller observes fragments from both models — refuting the
claim that only one model ever contributes fragments. -/
theorem chatStream_two_models_fragments :
    ((2, CsEv.frag "grok-4" "Hello") ∈ (chatStream E6 [] 0).1) ∧
    ((6, CsEv.frag "grok-beta" "World") ∈ (chatStream E6 [] 0).1) := by
  exact ⟨by decide, by decide⟩

/-- C6 amended: the fragments of a chatStream call are grouped by model
in registry order (the fragment tags decompose as consecutive
per-attempted-model blocks), and a model whose attempt fails before
streaming begins — a pre-aborted fetch, a network rejection, or any
non-2xx response — contributes no fragment at all; but after a mid-read
failure the next model is retried and its fragments follow the partial
ones, so more than one model may contribute. -/
theorem chatStream_frags_grouped (E : Env) (msgs : List Message) (t0 : Nat) :
    (∃ ks : List Nat, ks.length ≤ modelNames.length ∧
      fragModels (chatStream E msgs t0).1 =
        ((modelNames.take ks.length).zip ks).bind fun q => List.replicate q.2 q.1) ∧
    (∀ (m : String) (rest : List String) (t : Nat), m ∉ rest →
      (E.aborted t = true ∨
        (∃ e, E.transportS t m msgs = StreamFetch.netErr e) ∨
        ∃ s1 s2 s3, E.transportS t m msgs = StreamFetch.httpErr s1 s2 s3) →
      ∀ τ s, (τ, CsEv.frag m s) ∉ (csModelLoop E msgs (m :: rest) t).1) :=
  ⟨csModelLoop_frags_grouped E msgs modelNames t0,
   fun m rest t hm hfail => csModelLoop_prefail_no_frag E msgs m rest t hm hfail⟩

/-- C6 witness: the no-fragment part applied to a concrete pre-stream
network failure. -/
theorem chatStream_frags_grouped_witness :
    ((10 : Nat), CsEv.frag "grok-4" "x") ∉ (csModelLoop E6 [] ["grok-4"] 10).1 :=
  (chatStream_frags_grouped E6 [] 0).2 "grok-4" [] 10 (by decide)
    (Or.inr (Or.inl ⟨"unreachable", rfl⟩)) 10 "x"

/-- C7: the tool executor never throws.  Every invocation returns a
tool-role result carrying the tool-call identifier; a malformed-JSON
argument string yields a result whose content is the error description
prefixed with Error, with the state unchanged; and any error escaping the
executor body (argument parsing or the temp-file operations) is converted
by the catch into such an error result rather than propagating. -/
theorem executeToolCall_never_throws (env : FsEnv) (st : ClientState) (tc : ToolCall) :
    ((executeToolCall env st tc).1.role = "tool" ∧
     (executeToolCall env st tc).1.tool_call_id = some tc.id ∧
     (executeToolCall env st tc).1.name = some tc.function.name) ∧
    (∀ e, env.parseArgs tc.function.arguments = .error e →
      executeToolCall env st tc =
        ({ role := "tool", content := "Error: " ++ e,
           tool_call_id := some tc.id, name := some tc.function.name }, st)) ∧
    (∀ e st', executeToolCallExc env st tc = (.error e, st') →
      executeToolCall env st tc =
        ({ role := "tool", content := "Error: " ++ e,
           tool_call_id := some tc.id, name := some tc.function.name }, st')) := by
  refine ⟨?_, ?_, ?_⟩
  · unfold executeToolCall
    cases h : executeToolCallExc env st tc with
    | mk r1 s1 =>
      cases r1 with
      | ok r => exact executeToolCallExc_ok_shape env st tc r s1 h
      | error e => simp
  · intro e he
    unfold executeToolCall executeToolCallExc
    rw [he]
  · intro e st' h
    unfold executeToolCall
    rw [h]

/-- C7 witness: a malformed-JSON invocation returns the error result. -/
theorem executeToolCall_never_throws_witness :
    executeToolCall envBad {} tc0 =
      ({ role := "tool", content := "Error: Unexpected token",
         tool_call_id := some "id1", name := some "listFiles" }, ({} : ClientState)) :=
  (executeToolCall_never_throws envBad {} tc0).2.1 "Unexpected token" rfl

/-- C8: in the decoded event stream, a line prefixed with `data: ` whose
payload is malformed JSON is skipped — no fragment is yielded for it, the
time does not advance, and decoding continues with the remaining lines —
while a payload equal to the literal `[DONE]` terminator ends the yielded
sequence (the remaining lines are not processed). -/
theorem stream_line_skip_and_done (E : Env) (model line p : String)
    (rest : List String) (t : Nat)
    (hpre : strStartsWith line "data: " = true)
    (hdrop : strDrop line 6 = p) :
    (p ≠ "[DONE]" → E.parseDelta p = none →
      processLinesS E model (line :: rest) t = processLinesS E model rest t) ∧
    (p = "[DONE]" → processLinesS E model (line :: rest) t = ([], t, true)) := by
  constructor
  · intro hnd hmal
    conv_lhs => rw [processLinesS]
    rw [hpre, hdrop]
    simp [hnd, hmal]
  · intro hd
    conv_lhs => rw [processLinesS]
    rw [hpre, hdrop]
    simp [hd]

/-- C8 witness: a concrete malformed line is skipped. -/
theorem stream_line_skip_and_done_witness :
    processLinesS E6 "m" ["data: notjson"] 0 = processLinesS E6 "m" [] 0 :=
  (stream_line_skip_and_done E6 "m" "data: notjson" "notjson" [] 0
    (by decide) (by decide)).1 (by decide) (by decide)

/-- C9: if the token is fired at the post-tool-loop check of a turn, the
assistant message and the tool results of the interrupted turn are not
appended: the loop returns with the working history and the iteration
counter unchanged; and when the post-loop check sees an unfired token,
every requested tool call of the turn was executed — so the history grows
only in complete one-assistant-plus-n-results blocks. -/
theorem aborted_turn_keeps_history (E : Env) (fuel : Nat) (st : SWState)
    (content : Option String) (tcs : List ToolCall) (t1 : Nat)
    (ctr : List (Nat × Ev))
    (hchat : chat E st.msgs true st.t = (.ok ⟨content, tcs⟩, t1, ctr))
    (hab0 : E.aborted st.t = false)
    (hne : tcs ≠ []) :
    AbortedTurnSpec E fuel st tcs t1 := by
  constructor
  · intro habt
    refine ⟨((st.t, Ev.chatCall true) :: ctr) ++
      (t1, Ev.outStr (toolNotice tcs.length st.iter)) ::
        (toolLoop E tcs (t1 + 1) st.cst).2.1, ?_⟩
    rw [swLoop_tool_step E fuel st content tcs t1 ctr hab0 hchat hne]
    rw [if_pos habt]
  · intro habf
    exact toolLoop_complete_of_unaborted_end E tcs (t1 + 1) st.cst habf

/-- C9 witness: the theorem applied to the scenario in which the token
fires during the execution of the only tool call of the turn. -/
theorem aborted_turn_keeps_history_witness :
    AbortedTurnSpec E4 24 ⟨[msgU], 0, 0, ⟨none, []⟩⟩ [tc0] 1 :=
  aborted_turn_keeps_history E4 24 ⟨[msgU], 0, 0, ⟨none, []⟩⟩ none [tc0] 1
    [(0, Ev.fetchIssued "grok-4" true)] (by rfl) rfl (by decide)

/-- C10: a tool invocation whose arguments parse but whose name is none
of the four supported tools returns a normal tool-role result whose
content is `Unknown tool: ` followed by the name, not flagged cached,
with the client state (and hence the overflow cache) unchanged. -/
theorem unknown_tool_graceful (env : FsEnv) (st : ClientState) (tc : ToolCall)
    (args : ToolArgs)
    (hparse : env.parseArgs tc.function.arguments = .ok args)
    (h1 : tc.function.name ≠ "listFiles") (h2 : tc.function.name ≠ "writeFile")
    (h3 : tc.function.name ≠ "readFile") (h4 : tc.function.name ≠ "executeShell") :
    executeToolCall env st tc =
      (mkToolResult tc ("Unknown tool: " ++ tc.function.name) false, st) := by
  unfold executeToolCall executeToolCallExc
  rw [hparse]
  simp only [if_neg h1, if_neg h2, if_neg h3, if_neg h4]

/-- C10 witness: a concrete unknown tool name. -/
theorem unknown_tool_graceful_witness :
    executeToolCall fs2 {} tcU =
      (mkToolResult tcU ("Unknown tool: " ++ tcU.function.name) false,
        ({} : ClientState)) :=
  unknown_tool_graceful fs2 {} tcU { path := some "/f" } rfl
    (by decide) (by decide) (by decide) (by decide)

end GrokCli
